import Mathlib

/-!
Shallow embedding of `src/brent.py` (Brent's derivative-free root finder
`zero` and local minimizer `localmin`).

The Python code computes with IEEE doubles; the claims under study are about
the control flow and exact arithmetic of the algorithm, so the embedding
models the arithmetic exactly over an arbitrary linear ordered field `α`
(instantiated at `ℚ` for concrete evaluations).  Python's exact equality
tests (`fb == 0`, `a == c`, `w == x`) become exact equality in `α`.

The golden-section constant `c = (3 - math.sqrt 5)/2` computed at line 158 of
the source is irrational, so it is passed to the embedding as an explicit
parameter `gr`; every theorem about `localmin` holds for all values of `gr`
(or for all `gr` in an interval containing `(3 - Real.sqrt 5)/2 ≈ 0.381966`),
hence in particular for the source's constant.

The caller-supplied iteration caps (`fuel`) make the loops total: a run
returns `none` when the loop has not terminated within `fuel` iterations,
`some x` when the source's `while True` loop breaks and returns `x`.
-/

namespace Brent

variable {α : Type*} [LinearOrderedField α]

/-- Loop state of `zero` (src/brent.py lines 49-51): the bracket points
`a`, `b`, `c` with their function values and the step variables `d`
(last step) and `e` (second-to-last step). -/
structure ZState (α : Type*) where
  a : α
  fa : α
  b : α
  fb : α
  c : α
  fc : α
  d : α
  e : α
deriving DecidableEq

/-- Result of one iteration of the `while True` loop of `zero`:
either the loop breaks and the function returns a value, or it continues
with an updated state. -/
inductive ZRes (α : Type*) where
  | done : α → ZRes α
  | cont : ZState α → ZRes α
deriving DecidableEq

/-- src/brent.py lines 54-57: the relabeling at the top of each `zero`
iteration, translated with the source's three sequential tuple
assignments (`a, fa = b, fb`; `b, fb = c, fc`; `c, fc = a, fa` — the last
one reads the freshly assigned `a`, `fa`). -/
def zeroSwap (s : ZState α) : ZState α :=
  if |s.fc| < |s.fb| then
    let a1 := s.b
    let fa1 := s.fb
    let b1 := s.c
    let fb1 := s.fc
    let c1 := a1
    let fc1 := fa1
    ⟨a1, fa1, b1, fb1, c1, fc1, s.d, s.e⟩
  else s

/-- src/brent.py lines 66-91: step selection for `zero`, a direct sequential
translation.  Input is the post-relabeling state together with the already
computed `tol` and `m`; output is the pair `(d, e)` the iteration will use. -/
def zeroSelect (s : ZState α) (tol m : α) : α × α :=
  if |s.e| < tol ∧ |s.fa| ≤ |s.fb| then
    (m, m)
  else
    let s1 := s.fb / s.fa
    let pq : α × α :=
      if s.a = s.c then
        (2 * m * s1, 1 - s1)
      else
        let q0 := s.fa / s.fc
        let r0 := s.fb / s.fc
        (s1 * (2 * m * q0 * (q0 - r0) - (s.b - s.a) * (r0 - 1)),
          (q0 - 1) * (r0 - 1) * (s1 - 1))
    let pq2 : α × α := if pq.1 > 0 then (pq.1, -pq.2) else (-pq.1, pq.2)
    let p := pq2.1
    let q := pq2.2
    let sOld := s.e
    let e2 := s.d
    if 2 * p < 3 * m * q - |tol * q| ∧ p < |(1 / 2) * sOld * q| then
      (p / q, e2)
    else
      (m, m)

/-- One iteration of the `while True` loop of `zero`
(src/brent.py lines 53-99). -/
def zeroIter (f : α → α) (t eps : α) (s0 : ZState α) : ZRes α :=
  let s := zeroSwap s0
  let tol := 2 * eps * |s.b| + t
  let m := (1 / 2) * (s.c - s.b)
  if |m| ≤ tol ∨ s.fb = 0 then
    ZRes.done s.b
  else
    let de := zeroSelect s tol m
    let a1 := s.b
    let fa1 := s.fb
    let b1 := s.b + (if |de.1| > tol then de.1 else if m > 0 then tol else -tol)
    let fb1 := f b1
    if (fb1 > 0) ↔ (s.fc > 0) then
      ZRes.cont ⟨a1, fa1, b1, fb1, a1, fa1, b1 - a1, b1 - a1⟩
    else
      ZRes.cont ⟨a1, fa1, b1, fb1, s.c, s.fc, de.1, de.2⟩

/-- src/brent.py lines 46-51: state of `zero` after the initial
evaluations `fa = f(a)`, `fb = f(b)` and `c, fc = a, fa`, `d = e = b - a`. -/
def zeroInit (f : α → α) (a b : α) : ZState α :=
  let fa := f a
  let fb := f b
  ⟨a, fa, b, fb, a, fa, b - a, b - a⟩

/-- The `while True` loop of `zero`, with an iteration cap `fuel`. -/
def zeroLoop (f : α → α) (t eps : α) : Nat → ZState α → Option α
  | 0, _ => none
  | fuel + 1, s =>
    match zeroIter f t eps s with
    | ZRes.done r => some r
    | ZRes.cont s' => zeroLoop f t eps fuel s'

/-- `zero(f, a, b, t, eps)` of src/brent.py (with `eps` already resolved,
and an iteration cap `fuel`). -/
def zeroRun (f : α → α) (a b t eps : α) (fuel : Nat) : Option α :=
  zeroLoop f t eps fuel (zeroInit f a b)

/-- The points at which the loop of `zero` evaluates `f`, in order: on a
continuing iteration the single new evaluation `fb = f(b)` happens at the
new `b` (the re-anchoring step does not change `b`). -/
def zeroLoopTrace (f : α → α) (t eps : α) : Nat → ZState α → List α
  | 0, _ => []
  | fuel + 1, s =>
    match zeroIter f t eps s with
    | ZRes.done _ => []
    | ZRes.cont s' => s'.b :: zeroLoopTrace f t eps fuel s'

/-- All points at which a call `zero(f, a, b, t, eps)` evaluates `f`, in
order: the two initial endpoint evaluations (lines 46-47), then one point
per continuing iteration. -/
def zeroTrace (f : α → α) (a b t eps : α) (fuel : Nat) : List α :=
  a :: b :: zeroLoopTrace f t eps fuel (zeroInit f a b)

/-- Loop state of `localmin` (src/brent.py lines 158-163): the bracket
`(a, b)`, the best point `x`, second best `w`, previous second best `v`
with their function values, and the step variables `d` and `e`.

In the source, `d` is a local Python variable that is only assigned inside
the loop; it is read (line 187, `e = d`) strictly after its first
assignment on every run in which `tol > 0` throughout.  The initial state
of the embedding sets `d` to `0`; no theorem below depends on this value. -/
structure LState (α : Type*) where
  a : α
  b : α
  x : α
  fx : α
  w : α
  fw : α
  v : α
  fv : α
  d : α
  e : α
deriving DecidableEq

/-- Result of one iteration of the `while True` loop of `localmin`: either
the loop breaks and returns `x`, or the iteration evaluates `f` at one new
point `u` (recorded in the result) and continues with an updated state. -/
inductive LRes (α : Type*) where
  | done : α → LRes α
  | cont : α → LState α → LRes α
deriving DecidableEq

/-- The point at which an iteration evaluated `f`, if it did. -/
def LRes.evalPt {α : Type*} : LRes α → Option α
  | LRes.done _ => none
  | LRes.cont u _ => some u

/-- src/brent.py lines 166-170: the termination test at the top of each
`localmin` iteration, `abs(x - m) <= t2 - 0.5*(b - a)` with
`m = 0.5*(a + b)`, `tol = eps*abs(x) + t` and `t2 = 2*tol`. -/
def localminDone (t eps : α) (s : LState α) : Prop :=
  |s.x - (1 / 2) * (s.a + s.b)| ≤ 2 * (eps * |s.x| + t) - (1 / 2) * (s.b - s.a)

instance (t eps : α) (s : LState α) : Decidable (localminDone t eps s) := by
  unfold localminDone
  infer_instance

/-- One iteration of the `while True` loop of `localmin`
(src/brent.py lines 165-222).  `gr` is the golden-section constant `c`
of line 158. -/
def localminIter (f : α → α) (t eps gr : α) (s : LState α) : LRes α :=
  let m := (1 / 2) * (s.a + s.b)
  let tol := eps * |s.x| + t
  let t2 := 2 * tol
  if localminDone t eps s then
    LRes.done s.x
  else
    -- lines 173-187: p, q, r start at 0; the parabola is fitted only when
    -- abs(e) > tol, in which case r is then set to the old e and e to d.
    let pqre : α × α × α × α :=
      if |s.e| > tol then
        let r1 := (s.x - s.w) * (s.fx - s.fv)
        let q1 := (s.x - s.v) * (s.fx - s.fw)
        let p1 := (s.x - s.v) * q1 - (s.x - s.w) * r1
        let q2 := 2 * (q1 - r1)
        let pq : α × α := if q2 > 0 then (-p1, q2) else (p1, -q2)
        (pq.1, pq.2, s.e, s.d)
      else
        (0, 0, 0, s.e)
    let p := pqre.1
    let q := pqre.2.1
    let r := pqre.2.2.1
    let e1 := pqre.2.2.2
    -- lines 188-198: acceptance test for the parabolic step, else a
    -- golden-section step.
    let de : α × α :=
      if |p| < |(1 / 2) * q * r| ∧ p < q * (s.a - s.x) ∧ p < q * (s.b - s.x) then
        let d1 := p / q
        let u1 := s.x + d1
        if u1 - s.a < t2 ∧ s.b - u1 < t2 then
          ((if s.x < m then tol else -tol), e1)
        else
          (d1, e1)
      else
        let e2 := (if s.x < m then s.b else s.a) - s.x
        (gr * e2, e2)
    let d := de.1
    let e := de.2
    -- line 201: f must not be evaluated too close to x.
    let u := s.x + (if |d| ≥ tol then d else if d > 0 then tol else -tol)
    let fu := f u
    -- lines 205-222: update a, b, v, w, and x.
    if fu ≤ s.fx then
      let ab : α × α := if u < s.x then (s.a, s.x) else (s.x, s.b)
      LRes.cont u ⟨ab.1, ab.2, u, fu, s.x, s.fx, s.w, s.fw, d, e⟩
    else
      let ab : α × α := if u < s.x then (u, s.b) else (s.a, u)
      if fu ≤ s.fw ∨ s.w = s.x then
        LRes.cont u ⟨ab.1, ab.2, s.x, s.fx, u, fu, s.w, s.fw, d, e⟩
      else if fu ≤ s.fv ∨ s.v = s.x ∨ s.v = s.w then
        LRes.cont u ⟨ab.1, ab.2, s.x, s.fx, s.w, s.fw, u, fu, d, e⟩
      else
        LRes.cont u ⟨ab.1, ab.2, s.x, s.fx, s.w, s.fw, s.v, s.fv, d, e⟩

/-- src/brent.py lines 158-163: the state of `localmin` on entry to the
loop.  The caller-supplied argument `x` is taken but overwritten with the
golden-section point `a + gr*(b - a)` (line 159) before any use, exactly as
in the source; `f` is evaluated once, at that point. -/
def localminInit (f : α → α) (a b x gr : α) : LState α :=
  let x0 := a + gr * (b - a)
  let fx0 := f x0
  ⟨a, b, x0, fx0, x0, fx0, x0, fx0, 0, 0⟩

/-- The `while True` loop of `localmin`, with an iteration cap `fuel`. -/
def localminLoop (f : α → α) (t eps gr : α) : Nat → LState α → Option α
  | 0, _ => none
  | fuel + 1, s =>
    match localminIter f t eps gr s with
    | LRes.done r => some r
    | LRes.cont _ s' => localminLoop f t eps gr fuel s'

/-- `localmin(f, a, b, x, t, eps)` of src/brent.py (with `eps` already
resolved, the golden-section constant `gr` explicit, and an iteration cap
`fuel`). -/
def localminRun (f : α → α) (a b x t eps gr : α) (fuel : Nat) : Option α :=
  localminLoop f t eps gr fuel (localminInit f a b x gr)

/-- The points at which the loop of `localmin` evaluates `f`, in order. -/
def localminLoopTrace (f : α → α) (t eps gr : α) : Nat → LState α → List α
  | 0, _ => []
  | fuel + 1, s =>
    match localminIter f t eps gr s with
    | LRes.done _ => []
    | LRes.cont u s' => u :: localminLoopTrace f t eps gr fuel s'

/-- All points at which a call `localmin(f, a, b, x, t, eps)` evaluates
`f`, in order: the initial evaluation at the golden-section point
`a + gr*(b - a)` (line 161), then one point per continuing iteration. -/
def localminTrace (f : α → α) (a b x t eps gr : α) (fuel : Nat) : List α :=
  (a + gr * (b - a)) :: localminLoopTrace f t eps gr fuel (localminInit f a b x gr)

/-- The interpolation numerator and denominator computed by `zero`
(src/brent.py lines 70-80: secant when `a == c`, inverse quadratic
otherwise), before the sign normalization of lines 81-84, written as one
simultaneous expression in the post-relabeling state and `m`. -/
def zeroPQraw (s : ZState α) (m : α) : α × α :=
  if s.a = s.c then
    (2 * m * (s.fb / s.fa), 1 - s.fb / s.fa)
  else
    ((s.fb / s.fa) *
        (2 * m * (s.fa / s.fc) * (s.fa / s.fc - s.fb / s.fc) -
          (s.b - s.a) * (s.fb / s.fc - 1)),
      (s.fa / s.fc - 1) * (s.fb / s.fc - 1) * (s.fb / s.fa - 1))

/-- The `p` of src/brent.py line 87, after the sign normalization of lines
81-84 (src: `if p > 0: q = -q else: p = -p`, so the normalized `p` is
always nonnegative). -/
def zeroP (s : ZState α) (m : α) : α :=
  if (zeroPQraw s m).1 > 0 then (zeroPQraw s m).1 else -(zeroPQraw s m).1

/-- The `q` of src/brent.py line 87, after the sign normalization of lines
81-84. -/
def zeroQ (s : ZState α) (m : α) : α :=
  if (zeroPQraw s m).1 > 0 then -(zeroPQraw s m).2 else (zeroPQraw s m).2

/-! Concrete functions and iteration states used in the evaluations
below. -/

/-- `f(z) = 1000 - 1001*z`, with `f(0) = 1000`, `f(1) = -1` (a sign
change). -/
def fzC2 : ℚ → ℚ := fun z => 1000 - 1001 * z

/-- A `zero` iteration state consistent with `fzC2` (`fa = f(a)`,
`fb = f(b)`, re-anchored shape `c = a`, `fc = fa`) whose step variables
`d = e = 1/200` are smaller than `tol = 1/100`. -/
def zsC2 : ZState ℚ := ⟨0, 1000, 1, -1, 0, 1000, 1 / 200, 1 / 200⟩

/-- The state after one `zero` iteration from `zsC2` with `t = 1/100`,
`eps = 0`. -/
def zsC2' : ZState ℚ := ⟨1, -1, 99 / 100, 901 / 100, 1, -1, -(1 / 100), -(1 / 100)⟩

/-- `f(z) = (z + 1)^2`, a parabola with vertex `-1`. -/
def flC1 : ℚ → ℚ := fun z => (z + 1) * (z + 1)

/-- A `localmin` iteration state consistent with `flC1`
(`fx = f(1/2)`, `fw = f(1)`, `fv = f(2)`; `a = 0 < x < w < v < b = 4`,
`fx < fw < fv`, `|e| = 10 > tol`). -/
def lsC1 : LState ℚ := ⟨0, 4, 1 / 2, 9 / 4, 1, 4, 2, 9, 5, 10⟩

/-- The state after one `localmin` iteration from `lsC1` with
`t = 1/100`, `eps = 0`, `gr = 2/5`. -/
def lsC1' : LState ℚ := ⟨0, 1 / 2, -1, 0, 1 / 2, 9 / 4, 1, 4, -(3 / 2), 5⟩

/-- `f(z) = (z + 1/100)^2`, a parabola with vertex `-1/100`, just below
the endpoint `a = 0` of the state `lsC3`. -/
def flC3 : ℚ → ℚ := fun z => (z + 1 / 100) * (z + 1 / 100)

/-- A `localmin` iteration state consistent with `flC3` (`fx = f(1/2)`,
`fw = f(1)`, `fv = f(2)`; `a = 0 < x < w < v < b = 4`, `fx < fw < fv`,
`|e| = 10 > tol`). -/
def lsC3 : LState ℚ :=
  ⟨0, 4, 1 / 2, 2601 / 10000, 1, 10201 / 10000, 2, 40401 / 10000, 5, 10⟩

/-- The state after one `localmin` iteration from `lsC3` with
`t = 1/100`, `eps = 0`, `gr = 2/5`. -/
def lsC3' : LState ℚ :=
  ⟨0, 1 / 2, -(1 / 100), 0, 1 / 2, 2601 / 10000, 1, 10201 / 10000, -(51 / 100), 5⟩

/-! Helper lemmas about the minimum-step clamps at src/brent.py line 93
(`zero`) and line 201 (`localmin`). -/

theorem step_bound (tol x step : α) (h : tol ≤ |step|) : tol ≤ |x + step - x| := by
  rwa [add_sub_cancel_left]

theorem abs_step_min_gt (tol d m : α) :
    tol ≤ |if |d| > tol then d else if m > 0 then tol else -tol| := by
  split_ifs with h1 h2
  · exact le_of_lt h1
  · exact le_abs_self tol
  · rw [abs_neg]; exact le_abs_self tol

theorem abs_step_min_ge (tol d : α) :
    tol ≤ |if |d| ≥ tol then d else if d > 0 then tol else -tol| := by
  split_ifs with h1 h2
  · exact h1
  · exact le_abs_self tol
  · rw [abs_neg]; exact le_abs_self tol

/-- C1 (refuting evaluation): the claim states that a parabolic fit is
accepted only if `|p| < |0.5*q*r|` and the trial point `u = x + d` lies
strictly inside `(a, b)` with margin.  At the state below (a plausible
`localmin` iteration state: `a = 0 < x = 1/2 < b = 4`, `fx < fw < fv`,
the points `x`, `w`, `v` pairwise distinct, `|e| = 10 > tol = 1/100`),
line 188 of the source — which tests `p < q*(a - x)` where Brent's
published algorithm tests `p > q*(a - x)` — accepts the parabolic step
`d = p/q = -3/2` and evaluates `f` at `u = -1`, strictly outside
`(a, b) = (0, 4)`; no golden-section step is taken (the golden-section
trial point would be `x + (2/5)*(b - x) = 19/10`). -/
theorem c1_parabolic_accepted_outside_bracket :
    localminIter flC1 (1 / 100) 0 (2 / 5) lsC1 = LRes.cont (-1) lsC1' ∧
    ¬(lsC1.a < -1 ∧ (-1 : ℚ) < lsC1.b) ∧
    (-1 : ℚ) ≠ lsC1.x + (2 / 5) * (lsC1.b - lsC1.x) := by
  refine ⟨?_, by norm_num [lsC1], by norm_num [lsC1]⟩
  norm_num [flC1, lsC1, lsC1', localminIter, localminDone, abs_of_nonneg]

/-- C2 (counterexample): the claim says a bisection step is forced exactly
when `|e| < tol` or `|fa| > |fb|`.  At the state below both `|e| < tol`
and `|fa| > |fb|` hold, so under the claim the iteration would take the
bisection step `d = e = m = -1/2`, moving `b` to `1 + m = 1/2`.  The code
(line 66 tests `abs(e) < tol and abs(fa) <= abs(fb)`) instead attempts
linear interpolation, accepts it (`d = -1/1001`, below the minimum step),
and moves `b` to `1 - tol = 99/100 ≠ 1/2`. -/
theorem c2_counterexample :
    |zsC2.e| < 2 * 0 * |zsC2.b| + 1 / 100 ∧
    |zsC2.fa| > |zsC2.fb| ∧
    zeroIter fzC2 (1 / 100) 0 zsC2 = ZRes.cont zsC2' ∧
    zsC2'.b ≠ zsC2.b + (1 / 2) * (zsC2.c - zsC2.b) := by
  refine ⟨by norm_num [zsC2, abs_of_nonneg], by norm_num [zsC2, abs_of_nonneg], ?_,
    by norm_num [zsC2, zsC2']⟩
  norm_num [fzC2, zsC2, zsC2', zeroIter, zeroSwap, zeroSelect, abs_of_nonneg]

/-- C2 (amended): in `zero`, an immediate bisection step `d = e = m` is
forced exactly when `|e| < tol` AND `|fa| ≤ |fb|` (src/brent.py line 66);
in all other cases an interpolation step is attempted: the normalized
`p`, `q` are formed and the step is `d = p/q` with `e` set to the old `d`
when the acceptance test of line 87 passes (`2p < 3mq - |tol*q|` and
`p < |0.5*e_old*q|`, where `e_old` is the incoming `e`), falling back to
`d = e = m` otherwise. -/
theorem c2_bisection_forced_iff (s : ZState α) (tol m : α) :
    zeroSelect s tol m =
      if |s.e| < tol ∧ |s.fa| ≤ |s.fb| then (m, m)
      else if 2 * zeroP s m < 3 * m * zeroQ s m - |tol * zeroQ s m| ∧
          zeroP s m < |(1 / 2) * s.e * zeroQ s m| then
        (zeroP s m / zeroQ s m, s.d)
      else (m, m) := by
  simp only [zeroSelect, zeroP, zeroQ, zeroPQraw]
  split_ifs <;> rfl

/-- C3 (refuting evaluation): the claim says that after a parabolic
interpolation step produces `u = x + d`, landing within `t2 = 2*tol` of
EITHER endpoint replaces `d` by `tol` in magnitude toward the midpoint.
At the state below the code accepts a parabolic step with `u = -1/100`,
within `t2 = 1/50` of the endpoint `a = 0` (`|u - a| = 1/100 < 1/50`) but
not within `t2` of `b = 4`; line 193 tests `u - a < t2 and b - u < t2`
(Brent's published algorithm uses `or`, and the source's own comment says
`f` must not be evaluated too close to `a` or `b`), so the replacement is
skipped: `f` is evaluated at `-1/100`, not at `x + tol = 51/100` (nor at
`x - tol`). -/
theorem c3_endpoint_clamp_skipped :
    localminIter flC3 (1 / 100) 0 (2 / 5) lsC3 = LRes.cont (-(1 / 100)) lsC3' ∧
    |(-(1 / 100) : ℚ) - lsC3.a| < 2 * (1 / 100) ∧
    (-(1 / 100) : ℚ) ≠ lsC3.x + 1 / 100 ∧
    (-(1 / 100) : ℚ) ≠ lsC3.x - 1 / 100 := by
  refine ⟨?_, by norm_num [lsC3, abs_of_nonneg], by norm_num [lsC3], by norm_num [lsC3]⟩
  norm_num [flC3, lsC3, lsC3', localminIter, localminDone, abs_of_nonneg]

/-- C4 (counterexample): `zero` evaluates `f` at both bracket endpoints
unconditionally (lines 46-47), before any minimum-step logic applies, so
two evaluation points of a single call can be closer than the first
iteration's `tol = 2*eps*|b| + t`.  Here `f(1) < 0 < f(101/100)` (a valid
sign-change bracket), `t = 1 > 0`, `eps = 0`, and the only two evaluation
points `1` and `101/100` are `1/100 < tol = 1` apart. -/
theorem c4_counterexample :
    (fun z : ℚ => z - 201 / 200) 1 < 0 ∧
    0 < (fun z : ℚ => z - 201 / 200) (101 / 100) ∧
    zeroRun (fun z : ℚ => z - 201 / 200) 1 (101 / 100) 1 0 5 = some (101 / 100) ∧
    zeroTrace (fun z : ℚ => z - 201 / 200) 1 (101 / 100) 1 0 5 = [1, 101 / 100] ∧
    |(1 : ℚ) - 101 / 100| < 2 * 0 * |(101 / 100 : ℚ)| + 1 := by
  norm_num [zeroRun, zeroTrace, zeroLoop, zeroLoopTrace, zeroInit, zeroIter, zeroSwap,
    abs_of_nonneg]

/-- C4 (amended): excluding the initial endpoint evaluations, every
accepted step has magnitude at least the iteration's `tol`: whenever an
iteration of `zero` continues, the newly evaluated point (the new `b`) is
at least `tol = 2*eps*|b_old| + t` from the previous best point `b_old`
(stored in the new `a`); and whenever an iteration of `localmin`
continues, the newly evaluated point `u` is at least `tol = eps*|x| + t`
from the current best point `x` (src/brent.py lines 92-93 and 200-201). -/
theorem c4_min_step_amended :
    (∀ (f : α → α) (t eps : α) (s s' : ZState α),
        zeroIter f t eps s = ZRes.cont s' →
        2 * eps * |s'.a| + t ≤ |s'.b - s'.a|) ∧
    (∀ (f : α → α) (t eps gr : α) (s : LState α) (u : α) (s' : LState α),
        localminIter f t eps gr s = LRes.cont u s' →
        eps * |s.x| + t ≤ |u - s.x|) := by
  constructor
  · intro f t eps s s' h
    simp only [zeroIter] at h
    by_cases h1 : |(1 / 2) * ((zeroSwap s).c - (zeroSwap s).b)| ≤
        2 * eps * |(zeroSwap s).b| + t ∨ (zeroSwap s).fb = 0
    · rw [if_pos h1] at h; cases h
    · rw [if_neg h1] at h
      rcases ite_eq_iff.mp h with ⟨-, h2⟩ | ⟨-, h2⟩ <;>
        (injection h2 with h2; subst h2; exact step_bound _ _ _ (abs_step_min_gt _ _ _))
  · intro f t eps gr s u s' h
    simp only [localminIter] at h
    by_cases h1 : localminDone t eps s
    · rw [if_pos h1] at h; cases h
    · rw [if_neg h1] at h
      have h4 := congrArg LRes.evalPt h
      simp only [apply_ite LRes.evalPt] at h4
      simp only [LRes.evalPt] at h4
      simp only [ite_self] at h4
      injection h4 with h4
      subst h4
      exact step_bound _ _ _ (abs_step_min_ge _ _)

/-- C4 (amended, witness): both parts of the minimum-step bound at
concrete continuing iterations — the `zero` iteration of the C2 state
(new `b = 99/100`, previous `b = 1`, `tol = 1/100`) and the `localmin`
iteration of the C1 state (`u = -1`, `x = 1/2`, `tol = 1/100`). -/
theorem c4_min_step_amended_witness :
    2 * 0 * |zsC2'.a| + 1 / 100 ≤ |zsC2'.b - zsC2'.a| ∧
    0 * |lsC1.x| + 1 / 100 ≤ |(-1 : ℚ) - lsC1.x| :=
  ⟨c4_min_step_amended.1 fzC2 (1 / 100) 0 zsC2 zsC2'
      (by norm_num [fzC2, zsC2, zsC2', zeroIter, zeroSwap, zeroSelect, abs_of_nonneg]),
    c4_min_step_amended.2 flC1 (1 / 100) 0 (2 / 5) lsC1 (-1) lsC1'
      (by norm_num [flC1, lsC1, lsC1', localminIter, localminDone, abs_of_nonneg])⟩

/-- C5: one iteration of `zero` breaks the loop and returns precisely
when, after the relabeling step, `|m| ≤ tol` or `fb = 0` holds, with
`tol = 2*eps*|b| + t`, `m = 0.5*(c - b)`, and `fb = 0` an exact equality
(src/brent.py lines 59-63); the returned value is the current
(post-relabeling) `b`. -/
theorem c5_termination_iff (f : α → α) (t eps : α) (s : ZState α) (r : α) :
    zeroIter f t eps s = ZRes.done r ↔
      (|(1 / 2) * ((zeroSwap s).c - (zeroSwap s).b)| ≤ 2 * eps * |(zeroSwap s).b| + t ∨
          (zeroSwap s).fb = 0) ∧ r = (zeroSwap s).b := by
  simp only [zeroIter]
  by_cases h1 : |(1 / 2) * ((zeroSwap s).c - (zeroSwap s).b)| ≤
      2 * eps * |(zeroSwap s).b| + t ∨ (zeroSwap s).fb = 0
  · rw [if_pos h1]
    constructor
    · intro he; injection he with he; exact ⟨h1, he.symm⟩
    · rintro ⟨-, rfl⟩; rfl
  · rw [if_neg h1]
    constructor
    · intro he; rcases ite_eq_iff.mp he with ⟨-, h2⟩ | ⟨-, h2⟩ <;> cases h2
    · rintro ⟨hc, -⟩; exact absurd hc h1

/-- C6: the result of `localmin` does not depend on the caller-supplied
argument `x`: line 159 overwrites `x` with the golden-section point
`a + c*(b - a)` (the constant `c = (3 - √5)/2` of line 158 is the
parameter `gr` here) before any use.  Two calls differing only in `x`
return the same value and evaluate `f` at the same points, the first of
which is `a + gr*(b - a)`. -/
theorem c6_initial_x_ignored (f : α → α) (a b x1 x2 t eps gr : α) (fuel : Nat) :
    localminRun f a b x1 t eps gr fuel = localminRun f a b x2 t eps gr fuel ∧
    localminTrace f a b x1 t eps gr fuel = localminTrace f a b x2 t eps gr fuel ∧
    (localminTrace f a b x1 t eps gr fuel).head? = some (a + gr * (b - a)) :=
  ⟨rfl, rfl, rfl⟩

/-- C7: when `|fc| < |fb|` holds at the top of a `zero` iteration, the
three sequential tuple assignments of lines 55-57 realize exactly the
simultaneous 3-cycle `(a, b, c) ← (b, c, b)` with matching function
values `(fa, fb, fc) ← (fb, fc, fb)`, leaving `d` and `e` untouched. -/
theorem c7_relabel_three_cycle (s : ZState α) (h : |s.fc| < |s.fb|) :
    zeroSwap s = ⟨s.b, s.fb, s.c, s.fc, s.b, s.fb, s.d, s.e⟩ := by
  simp only [zeroSwap]
  rw [if_pos h]

/-- C7 (witness): the 3-cycle relabeling at a concrete state with
`|fc| = 1 < 5 = |fb|`. -/
theorem c7_relabel_three_cycle_witness :
    |(1 : ℚ)| < |(5 : ℚ)| ∧
    zeroSwap (⟨10, 7, 20, 5, 30, 1, 2, 3⟩ : ZState ℚ) = ⟨20, 5, 30, 1, 20, 5, 2, 3⟩ :=
  ⟨by norm_num [abs_of_nonneg],
    c7_relabel_three_cycle ⟨10, 7, 20, 5, 30, 1, 2, 3⟩ (by norm_num [abs_of_nonneg])⟩

/-- C8: in every continuing iteration of `zero`, the new state satisfies:
`a` and `fa` hold the previous (post-relabeling) `b` and `fb`; `fb` is the
fresh evaluation `f(b)` at the new `b`; and exactly when the new `(fb, fc)`
no longer straddle a sign change (`(fb > 0) == (fc > 0)`, line 96), the
state is re-anchored with `c = a`, `fc = fa` and `d = e = b - a`
(lines 97-99) — otherwise `c`, `fc`, `d`, `e` are left exactly as the step
selection computed them. -/
theorem c8_reanchor_characterization (f : α → α) (t eps : α) (s s' : ZState α)
    (h : zeroIter f t eps s = ZRes.cont s') :
    s'.a = (zeroSwap s).b ∧ s'.fa = (zeroSwap s).fb ∧ s'.fb = f s'.b ∧
    ((s'.fb > 0 ↔ (zeroSwap s).fc > 0) →
      s'.c = s'.a ∧ s'.fc = s'.fa ∧ s'.d = s'.b - s'.a ∧ s'.e = s'.b - s'.a) ∧
    (¬(s'.fb > 0 ↔ (zeroSwap s).fc > 0) →
      s'.c = (zeroSwap s).c ∧ s'.fc = (zeroSwap s).fc ∧
      s'.d = (zeroSelect (zeroSwap s) (2 * eps * |(zeroSwap s).b| + t)
          ((1 / 2) * ((zeroSwap s).c - (zeroSwap s).b))).1 ∧
      s'.e = (zeroSelect (zeroSwap s) (2 * eps * |(zeroSwap s).b| + t)
          ((1 / 2) * ((zeroSwap s).c - (zeroSwap s).b))).2) := by
  simp only [zeroIter] at h
  by_cases h1 : |(1 / 2) * ((zeroSwap s).c - (zeroSwap s).b)| ≤
      2 * eps * |(zeroSwap s).b| + t ∨ (zeroSwap s).fb = 0
  · rw [if_pos h1] at h; cases h
  · rw [if_neg h1] at h
    rcases ite_eq_iff.mp h with ⟨hre, h2⟩ | ⟨hre, h2⟩ <;> (injection h2 with h2; subst h2)
    · exact ⟨rfl, rfl, rfl, fun _ => ⟨rfl, rfl, rfl, rfl⟩, fun hn => absurd hre hn⟩
    · exact ⟨rfl, rfl, rfl, fun hp => absurd hp hre, fun _ => ⟨rfl, rfl, rfl, rfl⟩⟩

/-- C8 (witness): the re-anchoring characterization at a concrete
continuing iteration (the new `fb = 901/100` and old `fc = 1000` are both
positive, so the iteration re-anchors: `c = a = 1`, `fc = fa = -1`,
`d = e = b - a = -1/100`). -/
theorem c8_reanchor_characterization_witness :
    zeroIter fzC2 (1 / 100) 0 zsC2 = ZRes.cont zsC2' ∧
    (zsC2'.a = (zeroSwap zsC2).b ∧ zsC2'.fa = (zeroSwap zsC2).fb ∧
      zsC2'.fb = fzC2 zsC2'.b ∧
      ((zsC2'.fb > 0 ↔ (zeroSwap zsC2).fc > 0) →
        zsC2'.c = zsC2'.a ∧ zsC2'.fc = zsC2'.fa ∧
        zsC2'.d = zsC2'.b - zsC2'.a ∧ zsC2'.e = zsC2'.b - zsC2'.a) ∧
      (¬(zsC2'.fb > 0 ↔ (zeroSwap zsC2).fc > 0) →
        zsC2'.c = (zeroSwap zsC2).c ∧ zsC2'.fc = (zeroSwap zsC2).fc ∧
        zsC2'.d = (zeroSelect (zeroSwap zsC2) (2 * 0 * |(zeroSwap zsC2).b| + 1 / 100)
            ((1 / 2) * ((zeroSwap zsC2).c - (zeroSwap zsC2).b))).1 ∧
        zsC2'.e = (zeroSelect (zeroSwap zsC2) (2 * 0 * |(zeroSwap zsC2).b| + 1 / 100)
            ((1 / 2) * ((zeroSwap zsC2).c - (zeroSwap zsC2).b))).2)) :=
  have hh : zeroIter fzC2 (1 / 100) 0 zsC2 = ZRes.cont zsC2' := by
    norm_num [fzC2, zsC2, zsC2', zeroIter, zeroSwap, zeroSelect, abs_of_nonneg]
  ⟨hh, c8_reanchor_characterization fzC2 (1 / 100) 0 zsC2 zsC2' hh⟩

/-- C9 (counterexample): the claim quantifies over every `eps`, but for
`eps = -1`, `a = b = 10`, `t = 1/10 > 0` the tolerance
`tol = eps*|x| + t = -99/10` is negative and the first-iteration
termination test `|x - m| ≤ t2 - 0.5*(b - a)` (that is, `0 ≤ -99/5`)
fails, so `localmin` does not return on the first iteration.  (With
`a = b` the initial point `a + gr*(b - a) = a` does not depend on the
golden-section constant; on this input the source then goes on to read
the still-unassigned variable `d` at line 187 and raises `NameError`.) -/
theorem c9_counterexample :
    (0 : ℚ) < 1 / 10 ∧ (10 : ℚ) ≤ 10 ∧
    ¬ localminDone (1 / 10) (-1) (localminInit (fun _ : ℚ => 0) 10 10 5 (2 / 5)) := by
  norm_num [localminDone, localminInit, abs_of_nonneg]

/-- C9 (amended): for every `f`, `t > 0`, `eps ≥ 0`, golden-section
constant `gr ∈ [0, 1]` (satisfied by the source's `(3 - √5)/2 ≈ 0.382`),
and every `a ≥ b`, `localmin` passes its termination test on the first
iteration and returns `a + gr*(b - a)` (equal to `a` when `a = b`),
having evaluated `f` exactly once, at that returned point. -/
theorem c9_first_iteration_return_amended (f : α → α) (a b x t eps gr : α)
    (fuel : Nat) (hab : b ≤ a) (ht : 0 < t) (heps : 0 ≤ eps)
    (hgr0 : 0 ≤ gr) (hgr1 : gr ≤ 1) :
    localminDone t eps (localminInit f a b x gr) ∧
    localminRun f a b x t eps gr (fuel + 1) = some (a + gr * (b - a)) ∧
    localminTrace f a b x t eps gr (fuel + 1) = [a + gr * (b - a)] := by
  have hdone : localminDone t eps (localminInit f a b x gr) := by
    simp only [localminDone, localminInit]
    have h3 : (a + gr * (b - a)) - 1 / 2 * (a + b) = (1 / 2 - gr) * (a - b) := by ring
    have h2 : |(a + gr * (b - a)) - 1 / 2 * (a + b)| ≤ 1 / 2 * (a - b) := by
      rw [h3, abs_mul, abs_of_nonneg (by linarith : (0 : α) ≤ a - b)]
      exact mul_le_mul_of_nonneg_right (abs_le.mpr ⟨by linarith, by linarith⟩) (by linarith)
    have h6 : (0 : α) ≤ eps * |a + gr * (b - a)| := mul_nonneg heps (abs_nonneg _)
    linarith [h2, h6]
  have hiter : localminIter f t eps gr (localminInit f a b x gr) =
      LRes.done (a + gr * (b - a)) := by
    simp only [localminIter]
    rw [if_pos hdone]
    rfl
  exact ⟨hdone,
    by simp only [localminRun, localminLoop, hiter],
    by simp only [localminTrace, localminLoopTrace, hiter]⟩

/-- C9 (amended, witness): the first-iteration return at `f = 0`, `a = 3`,
`b = 1`, caller `x = 5` (ignored), `t = 1`, `eps = 0`, `gr = 2/5`. -/
theorem c9_first_iteration_return_amended_witness :
    localminDone 1 0 (localminInit (fun _ : ℚ => 0) 3 1 5 (2 / 5)) ∧
    localminRun (fun _ : ℚ => 0) 3 1 5 1 0 (2 / 5) (0 + 1) = some (3 + (2 / 5) * (1 - 3)) ∧
    localminTrace (fun _ : ℚ => 0) 3 1 5 1 0 (2 / 5) (0 + 1) = [3 + (2 / 5) * (1 - 3)] :=
  c9_first_iteration_return_amended (fun _ => 0) 3 1 5 1 0 (2 / 5) 0 (by norm_num)
    (by norm_num) (by norm_num) (by norm_num) (by norm_num)

/-- C10: if `f(b) = 0` exactly, `zero` returns `b` unchanged on the first
iteration (the relabeling cannot fire since `|fc| < |fb| = 0` is
impossible, and the `fb == 0` disjunct of line 62 short-circuits),
having evaluated `f` exactly twice, once at `a` and once at `b`,
regardless of the sign of `f(a)` and without any sign-change
precondition. -/
theorem c10_exact_zero_two_evals (f : α → α) (a b t eps : α) (fuel : Nat)
    (h : f b = 0) :
    zeroRun f a b t eps (fuel + 1) = some b ∧
    zeroTrace f a b t eps (fuel + 1) = [a, b] := by
  have hnc : ¬ |(zeroInit f a b).fc| < |(zeroInit f a b).fb| := by
    show ¬ |f a| < |f b|
    rw [h, abs_zero]
    exact not_lt.mpr (abs_nonneg _)
  have hswap : zeroSwap (zeroInit f a b) = zeroInit f a b := by
    unfold zeroSwap
    rw [if_neg hnc]
  have hiter : zeroIter f t eps (zeroInit f a b) = ZRes.done b := by
    simp only [zeroIter, hswap]
    rw [if_pos (Or.inr (show (zeroInit f a b).fb = 0 from h))]
    rfl
  constructor
  · simp only [zeroRun, zeroLoop, hiter]
  · simp only [zeroTrace, zeroLoopTrace, hiter]

/-- C10 (witness): `f(z) = z - 1` has `f(1) = 0`; `zero` on the bracket
`(0, 1)` with `t = 1/2`, `eps = 0` returns `1` after evaluating `f`
exactly at `0` and `1`. -/
theorem c10_exact_zero_two_evals_witness :
    zeroRun (fun z : ℚ => z - 1) 0 1 (1 / 2) 0 (0 + 1) = some 1 ∧
    zeroTrace (fun z : ℚ => z - 1) 0 1 (1 / 2) 0 (0 + 1) = [0, 1] :=
  c10_exact_zero_two_evals (fun z => z - 1) 0 1 (1 / 2) 0 0 (by norm_num)

end Brent
